import Mathlib

/-!
A shallow embedding of the fund-correlation pipeline of `app.py`
(identifier normalisation, resilient JSON fetch with gzip fallback,
per-fund return-series construction, collection orchestration, and the
alignment step of the correlation engine), together with theorems
settling the specification's claims about it.

Network and library effects (`requests.get`, `obter_nome_fundo`,
`json.loads` over UTF-8, gzip decompression) are modelled as components
of an explicit environment `Env`; everything else is translated
branch-for-branch from the source.
-/

/-- Raw bytes of an HTTP response body (`requests.Response.content`). -/
abbrev Bytes := List Nat

/-- One record of the remote JSON payload.  `dt` models the `DT_COMPTC`
field with dates as already-parsed day ordinals (`pd.to_datetime` is the
identity in this model) and `vl` models the `VL_QUOTA` field; `none`
means the key is absent from the record. -/
structure Record where
  dt : Option Nat
  vl : Option ℚ
deriving DecidableEq

/-- Payload of the history endpoint: a JSON array of records. -/
abbrev Payload := List Record

/-- An HTTP response: status code plus raw body bytes. -/
structure HttpResponse where
  status : Nat
  content : Bytes
deriving DecidableEq

/-- The effectful collaborators of the pipeline.
`get url` models `requests.get` (an `Except.error` is a raised request
exception, stringified); `nome` models `obter_nome_fundo`, the
best-effort name scrape that always returns a string (the spec treats it
as an external collaborator); `utf8Json` models
`json.loads(content.decode("utf-8"))`, `none` meaning that pipeline
raised; `gunzip` models gzip decompression of raw bytes, `none` meaning
it raised. -/
structure Env where
  get : String → Except String HttpResponse
  nome : String → String
  utf8Json : Bytes → Option Payload
  gunzip : Bytes → Option Bytes

def msg_status : String := "Status "

def msg_request_error : String := "Request error: "

/-- Stands for `f"JSON decode error: {e}"`; the interpolated exception
text is elided in the model. -/
def msg_decode_error : String := "JSON decode error: conteudo nao decodificavel"

/-- Lines 41–65 of `app.py`: fetch a URL and decode JSON, with a direct
UTF-8 parse first and a gunzip-then-parse fallback. -/
def fetch_json_url (env : Env) (url : String) : Option Payload × Option String :=
  match env.get url with
  | Except.error e => (none, some (msg_request_error ++ e))
  | Except.ok r =>
    if r.status ≠ 200 then (none, some (msg_status ++ toString r.status))
    else
      match env.utf8Json r.content with
      | some data => (some data, none)
      | none =>
        match env.gunzip r.content with
        | some inner =>
          match env.utf8Json inner with
          | some data => (some data, none)
          | none => (none, some msg_decode_error)
        | none => (none, some msg_decode_error)

/-- Lines 23–26 of `app.py`: `re.sub(r"\D", "", cnpj_raw)` after the
falsy-input guard — keep only (ASCII) digit characters. -/
def clean_cnpj (cnpj_raw : String) : String :=
  if cnpj_raw = "" then ""
  else String.mk (cnpj_raw.data.filter (fun c => c.isDigit))

/-- Date order used by `sort_values('DT_COMPTC')`; a missing date (NaT)
sorts last, as with pandas `na_position='last'`. -/
def dtLe : Option Nat → Option Nat → Prop
  | some a, some b => a ≤ b
  | some _, none => True
  | none, some _ => False
  | none, none => True

instance : DecidableRel dtLe
  | some a, some b => inferInstanceAs (Decidable (a ≤ b))
  | some _, none => inferInstanceAs (Decidable True)
  | none, some _ => inferInstanceAs (Decidable False)
  | none, none => inferInstanceAs (Decidable True)

/-- Record order induced by the date column. -/
def recLe (r s : Record) : Prop := dtLe r.dt s.dt

instance : DecidableRel recLe := fun r s => inferInstanceAs (Decidable (dtLe r.dt s.dt))

instance : IsTotal Record recLe where
  total := by
    rintro ⟨_ | a, _⟩ ⟨_ | b, _⟩
    · exact Or.inl trivial
    · exact Or.inr trivial
    · exact Or.inl trivial
    · exact (le_total a b).imp id id

instance : IsTrans Record recLe where
  trans := by
    rintro ⟨_ | a, _⟩ ⟨_ | b, _⟩ ⟨_ | c, _⟩ h₁ h₂ <;>
      first
      | trivial
      | exact False.elim h₂
      | exact False.elim h₁
      | exact le_trans h₁ h₂

/-- Line 101 of `app.py`: `df.sort_values('DT_COMPTC')`, modelled as a
stable sort by date. -/
def sort_values (recs : Payload) : Payload := List.insertionSort recLe recs

/-- Forward fill of the quota column, as performed by pandas
`pct_change` under its default `fill_method='pad'` before differencing. -/
def ffill (prev : Option ℚ) : Payload → List (Option Nat × Option ℚ)
  | [] => []
  | r :: rs =>
    match r.vl with
    | some v => (r.dt, some v) :: ffill (some v) rs
    | none => (r.dt, prev) :: ffill prev rs

/-- The differencing pass of `pct_change`: each entry is
`value / previous - 1`, `none` (NaN) when either side is missing.
Division is total ℚ-division; quota values are assumed nonzero wherever
a theorem relies on the numeric value. -/
def pct_step (prev : Option ℚ) : List (Option Nat × Option ℚ) → List (Option Nat × Option ℚ)
  | [] => []
  | (d, v) :: rest =>
    (d, match prev, v with
        | some a, some b => some (b / a - 1)
        | _, _ => none) :: pct_step v rest

/-- `df['VL_QUOTA'].pct_change()` on the date-indexed frame. -/
def pct_change (recs : Payload) : List (Option Nat × Option ℚ) :=
  pct_step none (ffill none recs)

/-- `.dropna()`: keep the rows whose value is defined. -/
def dropna : List (Option Nat × Option ℚ) → List (Option Nat × ℚ)
  | [] => []
  | (d, some v) :: rest => (d, v) :: dropna rest
  | (_, none) :: rest => dropna rest

/-- A return series: date-indexed daily returns. -/
abbrev RetSeries := List (Option Nat × ℚ)

/-- Lines 100–103 of `app.py`: sort by date, index by date, then
`pct_change().dropna()`. -/
def series_retorno (recs : Payload) : RetSeries :=
  dropna (pct_change (sort_values recs))

/-- `'DT_COMPTC' in df.columns` for a frame built from a list of JSON
records: the column exists iff some record carries the key. -/
def has_dt_col (recs : Payload) : Bool := recs.any (fun r => r.dt.isSome)

/-- `'VL_QUOTA' in df.columns`. -/
def has_vl_col (recs : Payload) : Bool := recs.any (fun r => r.vl.isSome)

def base_url : String := "https://www.okanebox.com.br/api/fundoinvestimento/hist/"

/-- Line 86 of `app.py`: the templated history URL. -/
def hist_url (cnpj : String) : String := base_url ++ cnpj ++ "/19000101/21000101/"

/-- Python slice `s[-n:]`. -/
def lastChars (n : Nat) (s : String) : String :=
  String.mk (s.data.drop (s.data.length - n))

def msg_cnpj_invalido : String := "CNPJ inválido após limpeza"

def msg_erro_buscar : String := "Erro ao buscar dados: "

def msg_sem_dados : String := "Sem dados retornados (lista vazia)"

def msg_estrutura : String := "Estrutura JSON inesperada"

def msg_retornos_vazios : String := "Retornos vazios após pct_change"

def fundo_tag : String := "Fundo_"

/-- Line 84 of `app.py`: the display name is the scraped name when
truthy (nonempty), else `"Fundo_" + cnpj[-6:]`. -/
def nome_display (env : Env) (cnpj : String) : String :=
  let nome := env.nome cnpj
  if nome ≠ "" then nome else fundo_tag ++ lastChars 6 cnpj

/-- The result of one iteration of the collection loop (lines 76–112 of
`app.py`) for a single raw identifier: either a display name with its
return series, or an error record `(identifier, reason)`. -/
inductive Outcome where
  | ok (nome : String) (s : RetSeries)
  | falha (ident : String) (msg : String)
deriving DecidableEq

/-- The body of the `for raw in cnpjs` loop of `coletar_dados_fundos`,
branch for branch: invalid identifier (line 78), fetch error (line 88),
falsy payload (line 91), missing columns (line 97), empty series after
`pct_change` (line 104), success (line 107).  The generic
`except` of lines 110–112 is unreachable in the model because frame
construction and date parsing are total here. -/
def outcome (env : Env) (raw : String) : Outcome :=
  let cnpj := clean_cnpj raw
  if cnpj = "" then Outcome.falha raw msg_cnpj_invalido
  else
    match fetch_json_url env (hist_url cnpj) with
    | (_, some err) => Outcome.falha cnpj (msg_erro_buscar ++ err)
    | (none, none) => Outcome.falha cnpj msg_sem_dados
    | (some [], none) => Outcome.falha cnpj msg_sem_dados
    | (some recs, none) =>
      if !has_dt_col recs || !has_vl_col recs then Outcome.falha cnpj msg_estrutura
      else if (series_retorno recs).isEmpty then Outcome.falha cnpj msg_retornos_vazios
      else Outcome.ok (nome_display env cnpj) (series_retorno recs)

/-- Python dict assignment `d[k] = v` on an insertion-ordered
association list: overwrite in place if the key exists, else append. -/
def upsert (m : List (String × RetSeries)) (k : String) (v : RetSeries) :
    List (String × RetSeries) :=
  match m with
  | [] => [(k, v)]
  | (k', v') :: rest => if k' = k then (k, v) :: rest else (k', v') :: upsert rest k v

/-- One loop iteration's effect on the accumulators
`(fundos_retornos, erros)`: a success stores the series under the
display name, a failure appends to the error ledger. -/
def coletar_step (env : Env) (acc : List (String × RetSeries) × List (String × String))
    (raw : String) : List (String × RetSeries) × List (String × String) :=
  match outcome env raw with
  | Outcome.ok nome s => (upsert acc.1 nome s, acc.2)
  | Outcome.falha ident msg => (acc.1, acc.2 ++ [(ident, msg)])

/-- Lines 67–114 of `app.py`: the collection orchestrator. -/
def coletar_dados_fundos (env : Env) (cnpjs : List String) :
    List (String × RetSeries) × List (String × String) :=
  cnpjs.foldl (coletar_step env) ([], [])

/-- The mapping `{nome_fundo: série}` handed to the correlation step. -/
abbrev NamedSeries := List (String × RetSeries)

/-- The date index of a series. -/
def series_dates (s : RetSeries) : List (Option Nat) := s.map Prod.fst

/-- The index surviving `pd.concat(..., axis=1, join='inner')`: dates of
the first series that occur in every series. -/
def common_dates (m : NamedSeries) : List (Option Nat) :=
  match m with
  | [] => []
  | (_, s) :: rest =>
    (series_dates s).filter (fun d => rest.all (fun t => (series_dates t.2).contains d))

/-- Value of a series at a date (first match; series built by the
pipeline from duplicate-free dates have at most one). -/
def lookup_date (s : RetSeries) (d : Option Nat) : ℚ :=
  match s.find? (fun p => p.1 == d) with
  | some p => p.2
  | none => 0

/-- The rows of the aligned frame produced by the inner join. -/
def aligned_rows (m : NamedSeries) : List (Option Nat × List ℚ) :=
  (common_dates m).map (fun d => (d, m.map (fun t => lookup_date t.2 d)))

/-- What `calcular_e_plotar_correlacao` does with its input: warn and
return early (lines 122–124 or 127–129), or reach line 131 and compute
`df.corr()` on the aligned frame, whose rows are carried along. -/
inductive CorrResult where
  | avisoMinimoFundos
  | avisoAposAlinhamento
  | matriz (rows : List (Option Nat × List ℚ))
deriving DecidableEq

/-- Lines 116–131 of `app.py` up to the correlation computation; the
plotting below line 131 is presentation and out of scope.  Note
`df.shape[1]` is the column count of the concatenated frame, which
equals the number of series: the inner join drops rows, not columns. -/
def calcular_e_plotar_correlacao (m : NamedSeries) : CorrResult :=
  if m.length < 2 then CorrResult.avisoMinimoFundos
  else
    let cols := m.map Prod.fst
    let rows := aligned_rows m
    if cols.length < 2 then CorrResult.avisoAposAlinhamento
    else CorrResult.matriz rows

/-! ## Helper lemmas -/

theorem append_ne_vazio (s t : String) (h : 0 < s.length) : s ++ t ≠ "" := by
  intro he
  have hlen := congrArg String.length he
  simp [String.length_append] at hlen
  omega

/-- Success of the HTTP body decode, either directly or through the
gzip fallback, with a 200 status. -/
def body_parsed (env : Env) (url : String) : Prop :=
  ∃ r, env.get url = Except.ok r ∧ r.status = 200 ∧
    ((env.utf8Json r.content).isSome ∨
      ∃ inner, env.gunzip r.content = some inner ∧ (env.utf8Json inner).isSome)

/-! ## Claims -/

/-- C9: every character of `clean_cnpj s` is a digit; a raw identifier
with no digit at all normalises to the empty string, and the
orchestrator then records the error `(raw, "CNPJ inválido após
limpeza")` for it under every environment — the quantification over the
environment expresses that no name lookup, fetch or series build takes
place for that entry. -/
theorem c9_normalizador_digitos (s raw : String)
    (hnd : ∀ c ∈ raw.data, c.isDigit = false) :
    (∀ c ∈ (clean_cnpj s).data, c.isDigit = true) ∧
    clean_cnpj raw = "" ∧
    (∀ env : Env, outcome env raw = Outcome.falha raw msg_cnpj_invalido) := by
  have hraw : clean_cnpj raw = "" := by
    by_cases h : raw = ""
    · simp [clean_cnpj, h]
    · simp only [clean_cnpj, h, if_false]
      have : raw.data.filter (fun c => c.isDigit) = [] := by
        rw [List.filter_eq_nil_iff]
        intro c hc
        simp [hnd c hc]
      rw [this]
  refine ⟨?_, hraw, ?_⟩
  · intro c hc
    by_cases h : s = ""
    · simp [clean_cnpj, h] at hc
    · simp only [clean_cnpj, h, if_false] at hc
      exact (List.mem_filter.mp hc).2
  · intro env
    simp [outcome, hraw]

/-- C5: with a 200-status response in hand, `fetch_json_url` first tries
the direct UTF-8 decode and JSON parse and returns its result when it
succeeds (the gzip path is then never consulted); exactly when the
direct parse fails it tries gunzip followed by the same decode-and-parse
and returns that result on success; and when both attempts fail it
returns a decode error. -/
theorem c5_fallback_gzip (env : Env) (url : String) (r : HttpResponse)
    (hget : env.get url = Except.ok r) (h200 : r.status = 200) :
    (∀ d, env.utf8Json r.content = some d → fetch_json_url env url = (some d, none)) ∧
    (env.utf8Json r.content = none →
      (∀ inner d, env.gunzip r.content = some inner → env.utf8Json inner = some d →
        fetch_json_url env url = (some d, none)) ∧
      ((env.gunzip r.content = none ∨
          ∃ inner, env.gunzip r.content = some inner ∧ env.utf8Json inner = none) →
        fetch_json_url env url = (none, some msg_decode_error))) := by
  refine ⟨fun d hd => ?_, fun hdirect => ⟨fun inner d hinner hd => ?_, fun hfail => ?_⟩⟩
  · simp [fetch_json_url, hget, h200, hd]
  · simp [fetch_json_url, hget, h200, hdirect, hinner, hd]
  · rcases hfail with hnone | ⟨inner, hinner, hd⟩ <;>
      simp [fetch_json_url, hget, h200, hdirect, *]

/-- C10: `fetch_json_url` is total (the embedding is a total function:
every branch of the source returns a pair) and, for every environment
and URL, returns a payload exactly when it returns no error, every
returned error string is nonempty (descriptive), and the error component
is `none` exactly when the response body was successfully parsed —
directly or through the gzip fallback — under a 200 status. -/
theorem c10_fetch_nunca_lanca (env : Env) (url : String) :
    ((fetch_json_url env url).1.isSome ↔ (fetch_json_url env url).2 = none) ∧
    (∀ e, (fetch_json_url env url).2 = some e → e ≠ "") ∧
    ((fetch_json_url env url).2 = none ↔ body_parsed env url) := by
  rcases hg : env.get url with e | r
  · refine ⟨by simp [fetch_json_url, hg], ?_, ?_⟩
    · intro e' he'
      simp [fetch_json_url, hg] at he'
      rw [← he']
      exact append_ne_vazio _ _ (by decide)
    · simp [fetch_json_url, hg, body_parsed]
  · by_cases h200 : r.status = 200
    · rcases hu : env.utf8Json r.content with _ | d
      · rcases hz : env.gunzip r.content with _ | inner
        · refine ⟨by simp [fetch_json_url, hg, h200, hu, hz], ?_, ?_⟩
          · intro e' he'
            simp [fetch_json_url, hg, h200, hu, hz] at he'
            rw [← he']
            decide
          · simp [fetch_json_url, hg, h200, hu, hz, body_parsed]
        · rcases hu2 : env.utf8Json inner with _ | d2
          · refine ⟨by simp [fetch_json_url, hg, h200, hu, hz, hu2], ?_, ?_⟩
            · intro e' he'
              simp [fetch_json_url, hg, h200, hu, hz, hu2] at he'
              rw [← he']
              decide
            · simp [fetch_json_url, hg, h200, hu, hz, hu2, body_parsed]
          · refine ⟨by simp [fetch_json_url, hg, h200, hu, hz, hu2], ?_, ?_⟩
            · intro e' he'
              simp [fetch_json_url, hg, h200, hu, hz, hu2] at he'
            · simp [fetch_json_url, hg, h200, hu, hz, hu2, body_parsed]
      · refine ⟨by simp [fetch_json_url, hg, h200, hu], ?_, ?_⟩
        · intro e' he'
          simp [fetch_json_url, hg, h200, hu] at he'
        · simp [fetch_json_url, hg, h200, hu, body_parsed]
    · refine ⟨by simp [fetch_json_url, hg, h200], ?_, ?_⟩
      · intro e' he'
        simp [fetch_json_url, hg, h200] at he'
        rw [← he']
        exact append_ne_vazio _ _ (by decide)
      · simp [fetch_json_url, hg, h200, body_parsed]

/-- The success view of one loop iteration. -/
def okOf (env : Env) (raw : String) : Option (String × RetSeries) :=
  match outcome env raw with
  | Outcome.ok n s => some (n, s)
  | Outcome.falha _ _ => none

/-- The failure view of one loop iteration. -/
def errOf (env : Env) (raw : String) : Option (String × String) :=
  match outcome env raw with
  | Outcome.ok _ _ => none
  | Outcome.falha i m => some (i, m)

/-- The successes of a run, in input order; each element depends only on
its own identifier. -/
def sucessos (env : Env) (cnpjs : List String) : List (String × RetSeries) :=
  cnpjs.filterMap (okOf env)

/-- The error ledger of a run, in input order; each element depends only
on its own identifier. -/
def falhas (env : Env) (cnpjs : List String) : List (String × String) :=
  cnpjs.filterMap (errOf env)

theorem comprimento_sucessos_falhas (env : Env) :
    ∀ cnpjs : List String,
      (sucessos env cnpjs).length + (falhas env cnpjs).length = cnpjs.length
  | [] => rfl
  | raw :: l => by
    have ih := comprimento_sucessos_falhas env l
    cases h : outcome env raw <;>
      simp [sucessos, falhas, List.filterMap_cons, okOf, errOf, h] at * <;>
      omega

theorem upsert_cons_eq (rest : List (String × RetSeries)) (k : String) (v v' : RetSeries) :
    upsert ((k, v') :: rest) k v = (k, v) :: rest := by
  simp [upsert]

theorem upsert_cons_ne (rest : List (String × RetSeries)) (k k' : String) (v v' : RetSeries)
    (h : k' ≠ k) : upsert ((k', v') :: rest) k v = (k', v') :: upsert rest k v := by
  simp [upsert, h]

theorem upsert_not_mem (m : List (String × RetSeries)) (k : String) (v : RetSeries)
    (h : k ∉ m.map Prod.fst) : upsert m k v = m ++ [(k, v)] := by
  induction m with
  | nil => rfl
  | cons p rest ih =>
    rcases p with ⟨k', v'⟩
    rw [List.map_cons, List.mem_cons, not_or] at h
    rw [upsert_cons_ne rest k k' v v' (fun he => h.1 he.symm)]
    rw [ih h.2]
    rfl

theorem lookup_upsert (m : List (String × RetSeries)) (k : String) (v : RetSeries) :
    List.lookup k (upsert m k v) = some v := by
  induction m with
  | nil => simp [upsert, List.lookup]
  | cons p rest ih =>
    rcases p with ⟨k', v'⟩
    by_cases h : k' = k
    · subst h
      simp [upsert, List.lookup]
    · have hbeq : (k == k') = false := by
        rw [beq_eq_false_iff_ne]
        exact Ne.symm h
      rw [upsert_cons_ne rest k k' v v' h]
      simp only [List.lookup, hbeq]
      exact ih

theorem mem_chaves_upsert (m : List (String × RetSeries)) (k a : String) (v : RetSeries) :
    a ∈ (upsert m k v).map Prod.fst ↔ a = k ∨ a ∈ m.map Prod.fst := by
  induction m with
  | nil => simp [upsert]
  | cons p rest ih =>
    rcases p with ⟨k', v'⟩
    by_cases h : k' = k
    · subst h
      rw [upsert_cons_eq rest k' v v']
      simp only [List.map_cons, List.mem_cons]
      tauto
    · rw [upsert_cons_ne rest k k' v v' h]
      simp only [List.map_cons, List.mem_cons, ih]
      tauto

theorem upsert_chaves_nodup (m : List (String × RetSeries)) (k : String) (v : RetSeries)
    (h : (m.map Prod.fst).Nodup) : ((upsert m k v).map Prod.fst).Nodup := by
  induction m with
  | nil => simp [upsert]
  | cons p rest ih =>
    rcases p with ⟨k', v'⟩
    rw [List.map_cons, List.nodup_cons] at h
    by_cases hk : k' = k
    · subst hk
      rw [upsert_cons_eq rest k' v v']
      rw [List.map_cons, List.nodup_cons]
      exact h
    · rw [upsert_cons_ne rest k k' v v' hk]
      rw [List.map_cons, List.nodup_cons]
      refine ⟨?_, ih h.2⟩
      intro hmem
      rcases (mem_chaves_upsert rest k k' v).mp hmem with he | hm
      · exact hk he
      · exact h.1 hm

theorem filter_upsert_nodup (m : List (String × RetSeries)) (k : String) (v : RetSeries)
    (h : (m.map Prod.fst).Nodup) :
    (upsert m k v).filter (fun p => p.1 == k) = [(k, v)] := by
  induction m with
  | nil => simp [upsert]
  | cons p rest ih =>
    rcases p with ⟨k', v'⟩
    rw [List.map_cons, List.nodup_cons] at h
    by_cases hk : k' = k
    · subst hk
      rw [upsert_cons_eq rest k' v v']
      rw [List.filter_cons_of_pos (by simp)]
      have hnil : rest.filter (fun p => p.1 == k') = [] := by
        rw [List.filter_eq_nil_iff]
        intro p hp
        simp only [beq_iff_eq]
        intro he
        have hmem : p.1 ∈ List.map Prod.fst rest := List.mem_map_of_mem Prod.fst hp
        rw [he] at hmem
        exact h.1 hmem
      rw [hnil]
    · rw [upsert_cons_ne rest k k' v v' hk]
      rw [List.filter_cons_of_neg (by simp [hk])]
      exact ih h.2

theorem foldl_coletar (env : Env) :
    ∀ (l : List String) (m : List (String × RetSeries)) (e : List (String × String)),
      ((m.map Prod.fst) ++ (sucessos env l).map Prod.fst).Nodup →
      l.foldl (coletar_step env) (m, e) = (m ++ sucessos env l, e ++ falhas env l)
  | [], m, e, _ => by simp [sucessos, falhas]
  | raw :: l, m, e, h => by
    cases ho : outcome env raw with
    | falha i msg =>
      have hs : sucessos env (raw :: l) = sucessos env l := by
        simp [sucessos, List.filterMap_cons, okOf, ho]
      have hf : falhas env (raw :: l) = (i, msg) :: falhas env l := by
        simp [falhas, List.filterMap_cons, errOf, ho]
      rw [hs] at h
      simp only [List.foldl_cons, coletar_step, ho]
      rw [foldl_coletar env l m (e ++ [(i, msg)]) h, hs, hf]
      simp
    | ok n s =>
      have hs : sucessos env (raw :: l) = (n, s) :: sucessos env l := by
        simp [sucessos, List.filterMap_cons, okOf, ho]
      have hf : falhas env (raw :: l) = falhas env l := by
        simp [falhas, List.filterMap_cons, errOf, ho]
      rw [hs] at h
      have hn : n ∉ m.map Prod.fst := by
        rw [List.nodup_append] at h
        intro hmem
        exact h.2.2 hmem (by simp)
      simp only [List.foldl_cons, coletar_step, ho]
      rw [upsert_not_mem m n s hn]
      have h' : (((m ++ [(n, s)]).map Prod.fst) ++ (sucessos env l).map Prod.fst).Nodup := by
        rw [List.map_append, List.append_assoc]
        simpa using h
      rw [foldl_coletar env l (m ++ [(n, s)]) e h', hs, hf]
      simp

theorem chaves_coletar_nodup (env : Env) :
    ∀ (l : List String) (m : List (String × RetSeries)) (e : List (String × String)),
      (m.map Prod.fst).Nodup →
      ((l.foldl (coletar_step env) (m, e)).1.map Prod.fst).Nodup
  | [], _, _, h => h
  | raw :: l, m, e, h => by
    cases ho : outcome env raw with
    | falha i msg =>
      simp only [List.foldl_cons, coletar_step, ho]
      exact chaves_coletar_nodup env l m (e ++ [(i, msg)]) h
    | ok n s =>
      simp only [List.foldl_cons, coletar_step, ho]
      exact chaves_coletar_nodup env l (upsert m n s) e (upsert_chaves_nodup m n s h)

/-- C2: provided the successful identifiers resolve to pairwise distinct
display names (the claim's "modulo display-name collisions"), the
orchestrator's result mapping is exactly the ordered list of
per-identifier successes and its error ledger exactly the ordered list
of per-identifier failures — each a `filterMap` of a function of the
single identifier alone, so one identifier's failure never affects
another's collection — and the sizes account for every identifier:
`len(series_map) + len(error_list) = N`. -/
theorem c2_contabilidade_isolamento (env : Env) (cnpjs : List String)
    (hnomes : ((sucessos env cnpjs).map Prod.fst).Nodup) :
    coletar_dados_fundos env cnpjs = (sucessos env cnpjs, falhas env cnpjs) ∧
    (coletar_dados_fundos env cnpjs).1.length + (coletar_dados_fundos env cnpjs).2.length
      = cnpjs.length := by
  have h := foldl_coletar env cnpjs [] [] (by simpa using hnomes)
  have heq : coletar_dados_fundos env cnpjs = (sucessos env cnpjs, falhas env cnpjs) := by
    simpa [coletar_dados_fundos] using h
  refine ⟨heq, ?_⟩
  rw [heq]
  exact comprimento_sucessos_falhas env cnpjs

/-- C6: a nonempty payload whose records all lack the date key, or all
lack the quota key (so the frame has no `DT_COMPTC`, resp. `VL_QUOTA`,
column), makes the loop record the structural-mismatch error and add
nothing to the series mapping: a singleton run returns an empty mapping
and exactly that error record. -/
theorem c6_estrutura_inesperada (env : Env) (raw : String) (recs : Payload)
    (hclean : clean_cnpj raw ≠ "")
    (hfetch : fetch_json_url env (hist_url (clean_cnpj raw)) = (some recs, none))
    (hne : recs ≠ [])
    (hmissing : (∀ r ∈ recs, r.dt = none) ∨ (∀ r ∈ recs, r.vl = none)) :
    outcome env raw = Outcome.falha (clean_cnpj raw) msg_estrutura ∧
    coletar_dados_fundos env [raw] = ([], [(clean_cnpj raw, msg_estrutura)]) := by
  have hcol : (!has_dt_col recs || !has_vl_col recs) = true := by
    rcases hmissing with h | h
    · have hf : has_dt_col recs = false := by
        rw [has_dt_col, List.any_eq_false]
        intro r hr
        simp [h r hr]
      simp [hf]
    · have hf : has_vl_col recs = false := by
        rw [has_vl_col, List.any_eq_false]
        intro r hr
        simp [h r hr]
      simp [hf]
  have ho : outcome env raw = Outcome.falha (clean_cnpj raw) msg_estrutura := by
    rcases hr : recs with _ | ⟨r0, rest⟩
    · exact absurd hr hne
    · rw [hr] at hfetch hcol
      simp [outcome, hclean, hfetch, hcol]
  exact ⟨ho, by simp [coletar_dados_fundos, coletar_step, ho]⟩

/-- C7: a structurally valid single-observation payload (its one record
carries both the date and the quota keys, as the spec's RawPayload
demands) always ends in the empty-return-series failure: `pct_change`
leaves only the undefined first entry, `dropna` empties it, the error
`"Retornos vazios após pct_change"` is recorded, and nothing is added to
the mapping. -/
theorem c7_observacao_unica (env : Env) (raw : String) (r : Record) (d : Nat) (v : ℚ)
    (hclean : clean_cnpj raw ≠ "")
    (hfetch : fetch_json_url env (hist_url (clean_cnpj raw)) = (some [r], none))
    (hdt : r.dt = some d) (hvl : r.vl = some v) :
    outcome env raw = Outcome.falha (clean_cnpj raw) msg_retornos_vazios ∧
    coletar_dados_fundos env [raw] = ([], [(clean_cnpj raw, msg_retornos_vazios)]) := by
  have hempty : (series_retorno [r]).isEmpty = true := by
    simp [series_retorno, sort_values, List.insertionSort, List.orderedInsert,
      pct_change, ffill, hvl, pct_step, dropna]
  have hcols : (!has_dt_col [r] || !has_vl_col [r]) = false := by
    simp [has_dt_col, has_vl_col, hdt, hvl]
  have ho : outcome env raw = Outcome.falha (clean_cnpj raw) msg_retornos_vazios := by
    simp [outcome, hclean, hfetch, hcols, hempty]
  exact ⟨ho, by simp [coletar_dados_fundos, coletar_step, ho]⟩

/-- C8: when two identifiers in one run both succeed and resolve to the
same display name, the later one's series silently overwrites the
earlier one's in the result mapping: after the run, looking up that name
yields the later series, and the mapping holds exactly one entry under
that name — the earlier series is gone. -/
theorem c8_sobrescrita_nome_duplicado (env : Env) (pre : List String) (r1 r2 n : String)
    (s1 s2 : RetSeries) (_hne : r1 ≠ r2)
    (h1 : outcome env r1 = Outcome.ok n s1) (h2 : outcome env r2 = Outcome.ok n s2) :
    List.lookup n (coletar_dados_fundos env (pre ++ [r1, r2])).1 = some s2 ∧
    (coletar_dados_fundos env (pre ++ [r1, r2])).1.filter (fun p => p.1 == n)
      = [(n, s2)] := by
  have hsplit : coletar_dados_fundos env (pre ++ [r1, r2])
      = (upsert (upsert (coletar_dados_fundos env pre).1 n s1) n s2,
         (coletar_dados_fundos env pre).2) := by
    rw [coletar_dados_fundos, List.foldl_append]
    rcases hA : pre.foldl (coletar_step env) ([], []) with ⟨m, e⟩
    simp [coletar_step, h1, h2, coletar_dados_fundos, hA]
  have hnodup : (((coletar_dados_fundos env pre).1).map Prod.fst).Nodup :=
    chaves_coletar_nodup env pre [] [] (by simp)
  rw [hsplit]
  constructor
  · exact lookup_upsert _ n s2
  · exact filter_upsert_nodup _ n s2 (upsert_chaves_nodup _ n s1 hnodup)

/-- The return series as §8 property 2 of the spec words it: entry `i`
is `payload[i].value / payload[i-1].value - 1`, indexed by the later
row's date. -/
def spec_returns (recs : Payload) : RetSeries :=
  (recs.zip recs.tail).map (fun p => (p.2.dt, p.2.vl.getD 0 / p.1.vl.getD 0 - 1))

/-- `spec_returns` relative to an explicit previous quota value. -/
def spec_returns_from (a : ℚ) : Payload → RetSeries
  | [] => []
  | r :: rs => (r.dt, r.vl.getD 0 / a - 1) :: spec_returns_from (r.vl.getD 0) rs

theorem dropna_pct_ffill :
    ∀ (a : ℚ) (recs : Payload), (∀ r ∈ recs, (r.vl).isSome) →
      dropna (pct_step (some a) (ffill (some a) recs)) = spec_returns_from a recs
  | _, [], _ => rfl
  | a, r :: rs, h => by
    rcases hv : r.vl with _ | b
    · have hr := h r (by simp)
      rw [hv] at hr
      simp at hr
    · have hrest : ∀ x ∈ rs, (x.vl).isSome := fun x hx => h x (by simp [hx])
      simp only [ffill, hv, pct_step, dropna]
      rw [dropna_pct_ffill b rs hrest]
      simp [spec_returns_from, hv]

theorem spec_returns_cons :
    ∀ (r : Record) (rs : Payload),
      spec_returns (r :: rs) = spec_returns_from (r.vl.getD 0) rs
  | _, [] => rfl
  | r, r2 :: rest => by
    have htail : spec_returns (r :: r2 :: rest)
        = (r2.dt, r2.vl.getD 0 / r.vl.getD 0 - 1) :: spec_returns (r2 :: rest) := by
      simp [spec_returns, List.zip_cons_cons]
    rw [htail, spec_returns_cons r2 rest]
    simp [spec_returns_from]

/-- C3: on a structurally valid payload of at least two chronologically
sorted observations with (positive) quota values, the built series is
exactly the spec's formula — entry `i` is the simple relative return
against the immediately preceding row — and has exactly one fewer entry
than the payload, the undefined first observation having been dropped. -/
theorem c3_construcao_retornos (recs : Payload)
    (hlen : 2 ≤ recs.length)
    (hsorted : List.Sorted recLe recs)
    (hvl : ∀ r ∈ recs, ∃ v : ℚ, 0 < v ∧ r.vl = some v) :
    series_retorno recs = spec_returns recs ∧
    (series_retorno recs).length = recs.length - 1 := by
  have hsome : ∀ r ∈ recs, (r.vl).isSome := by
    intro r hr
    rcases hvl r hr with ⟨v, _, hv⟩
    simp [hv]
  have hsort : sort_values recs = recs := hsorted.insertionSort_eq
  have heq : series_retorno recs = spec_returns recs := by
    rw [series_retorno, hsort]
    rcases recs with _ | ⟨r, rs⟩
    · rfl
    · rcases hv : r.vl with _ | b
      · have hr := hsome r (by simp)
        rw [hv] at hr
        simp at hr
      · have hrest : ∀ x ∈ rs, (x.vl).isSome := fun x hx => hsome x (by simp [hx])
        rw [pct_change]
        simp only [ffill, hv, pct_step, dropna]
        rw [dropna_pct_ffill b rs hrest, spec_returns_cons]
        simp [hv]
  refine ⟨heq, ?_⟩
  rw [heq, spec_returns, List.length_map, List.length_zip, List.length_tail]
  omega

theorem ffill_datas :
    ∀ (prev : Option ℚ) (recs : Payload),
      (ffill prev recs).map Prod.fst = recs.map Record.dt
  | _, [] => rfl
  | prev, r :: rs => by
    rcases hv : r.vl with _ | b <;>
      simp only [ffill, hv, List.map_cons] <;>
      rw [ffill_datas _ rs]

theorem pct_step_datas :
    ∀ (prev : Option ℚ) (l : List (Option Nat × Option ℚ)),
      (pct_step prev l).map Prod.fst = l.map Prod.fst
  | _, [] => rfl
  | _, (d, v) :: rest => by
    simp only [pct_step, List.map_cons]
    rw [pct_step_datas v rest]

theorem dropna_datas_sublist :
    ∀ l : List (Option Nat × Option ℚ),
      List.Sublist ((dropna l).map Prod.fst) (l.map Prod.fst)
  | [] => List.Sublist.refl []
  | (d, some v) :: rest => by
    simp only [dropna, List.map_cons]
    exact (dropna_datas_sublist rest).cons₂ d
  | (d, none) :: rest => by
    simp only [dropna, List.map_cons]
    exact (dropna_datas_sublist rest).cons d

/-- C4 (amended): the series builder sorts the records by date
ascending, so the built series' dates are always non-decreasing; but it
performs no deduplication, so a payload with repeated dates yields
repeated — not unique — dates (see the counterexample). -/
theorem c4_datas_ordenadas_sem_dedup (recs : Payload) :
    ((series_retorno recs).map Prod.fst).Pairwise dtLe := by
  have hsorted : ((sort_values recs).map Record.dt).Pairwise dtLe :=
    List.pairwise_map.mpr (List.sorted_insertionSort recLe recs)
  have h1 : (pct_change (sort_values recs)).map Prod.fst
      = (sort_values recs).map Record.dt := by
    rw [pct_change, pct_step_datas, ffill_datas]
  have h2 := dropna_datas_sublist (pct_change (sort_values recs))
  rw [h1] at h2
  exact hsorted.sublist h2

/-- Payload with a repeated date (two observations on day 2). -/
def payload_data_repetida : Payload :=
  [⟨some 1, some 1⟩, ⟨some 2, some 2⟩, ⟨some 2, some 3⟩]

/-- C4 as stated is false on the code: lines 100–103 sort but never
deduplicate (`set_index` keeps duplicate labels), so this payload's
series has dates `[2, 2]` — neither unique nor strictly ascending. -/
theorem c4_contraexemplo :
    (series_retorno payload_data_repetida).map Prod.fst = [some 2, some 2] ∧
    ¬ ((series_retorno payload_data_repetida).map Prod.fst).Nodup := by
  have h : (series_retorno payload_data_repetida).map Prod.fst = [some 2, some 2] := by
    simp +decide [series_retorno, payload_data_repetida, sort_values, pct_change, ffill,
      pct_step, dropna, List.insertionSort, List.orderedInsert, recLe, dtLe]
  refine ⟨h, ?_⟩
  rw [h]
  decide

def serie_fundo_a : RetSeries := [(some 0, 1)]

def serie_fundo_b : RetSeries := [(some 1, 1)]

/-- C1 is violated by the code (code bug): for two nonempty series with
disjoint date sets the engine does not stop with the post-alignment
warning — `df.shape[1]` counts columns, which the inner join never
reduces, so the guard of line 127 is dead — and instead reaches
`df.corr()` with an aligned frame of zero rows, producing (and plotting)
a degenerate all-NaN matrix. -/
theorem c1_datas_disjuntas_matriz_degenerada :
    (∀ d ∈ series_dates serie_fundo_a, d ∉ series_dates serie_fundo_b) ∧
    serie_fundo_a ≠ [] ∧ serie_fundo_b ≠ [] ∧
    calcular_e_plotar_correlacao [("A", serie_fundo_a), ("B", serie_fundo_b)]
      = CorrResult.matriz [] := by
  refine ⟨by decide, by decide, by decide, by decide⟩

/-- Two-observation payload used by the witnesses. -/
def recsW3 : Payload := [⟨some 1, some 1⟩, ⟨some 2, some 2⟩]

/-- Concrete environment: every URL serves `recsW3` under status 200,
every fund resolves to the display name `"F"`. -/
def env_test : Env :=
  { get := fun _ => Except.ok ⟨200, [0]⟩
    nome := fun _ => "F"
    utf8Json := fun b => if b = [0] then some recsW3 else none
    gunzip := fun _ => none }

theorem c2_testemunha :
    ((sucessos env_test ["1", "abc"]).map Prod.fst).Nodup ∧
    coletar_dados_fundos env_test ["1", "abc"]
      = (sucessos env_test ["1", "abc"], falhas env_test ["1", "abc"]) ∧
    (coletar_dados_fundos env_test ["1", "abc"]).1.length
      + (coletar_dados_fundos env_test ["1", "abc"]).2.length = 2 := by
  have h := c2_contabilidade_isolamento env_test ["1", "abc"] (by decide)
  exact ⟨by decide, h.1, h.2⟩

theorem c3_testemunha :
    (2 ≤ recsW3.length ∧ List.Sorted recLe recsW3) ∧
    series_retorno recsW3 = spec_returns recsW3 ∧
    (series_retorno recsW3).length = recsW3.length - 1 := by
  have hvl : ∀ r ∈ recsW3, ∃ v : ℚ, 0 < v ∧ r.vl = some v := by
    intro r hr
    rcases List.mem_cons.mp hr with h | hr2
    · subst h
      exact ⟨1, one_pos, rfl⟩
    · rcases List.mem_cons.mp hr2 with h | h
      · subst h
        exact ⟨2, two_pos, rfl⟩
      · simp at h
  have hsorted : List.Sorted recLe recsW3 := by decide
  exact ⟨⟨by decide, hsorted⟩, c3_construcao_retornos recsW3 (by decide) hsorted hvl⟩

/-- Environment whose payload bytes only parse through the gzip path. -/
def env_gzip : Env :=
  { get := fun _ => Except.ok ⟨200, [7]⟩
    nome := fun _ => "F"
    utf8Json := fun b => if b = [8] then some recsW3 else none
    gunzip := fun b => if b = [7] then some [8] else none }

theorem c5_testemunha :
    env_gzip.utf8Json (HttpResponse.mk 200 [7]).content = none ∧
    fetch_json_url env_gzip "u" = (some recsW3, none) := by
  have h := c5_fallback_gzip env_gzip "u" ⟨200, [7]⟩ rfl rfl
  exact ⟨rfl, (h.2 rfl).1 [8] recsW3 rfl rfl⟩

/-- Environment serving a payload whose single record has no date key. -/
def env_sem_datas : Env :=
  { get := fun _ => Except.ok ⟨200, [0]⟩
    nome := fun _ => "F"
    utf8Json := fun b => if b = [0] then some [⟨none, some 1⟩] else none
    gunzip := fun _ => none }

theorem c6_testemunha :
    clean_cnpj "1" ≠ "" ∧
    outcome env_sem_datas "1" = Outcome.falha (clean_cnpj "1") msg_estrutura ∧
    coletar_dados_fundos env_sem_datas ["1"] = ([], [(clean_cnpj "1", msg_estrutura)]) := by
  have h := c6_estrutura_inesperada env_sem_datas "1" [⟨none, some 1⟩]
    (by decide) rfl (by decide) (Or.inl (by decide))
  exact ⟨by decide, h.1, h.2⟩

/-- Environment serving a structurally valid single-observation payload. -/
def env_obs_unica : Env :=
  { get := fun _ => Except.ok ⟨200, [0]⟩
    nome := fun _ => "F"
    utf8Json := fun b => if b = [0] then some [⟨some 1, some 1⟩] else none
    gunzip := fun _ => none }

theorem c7_testemunha :
    clean_cnpj "1" ≠ "" ∧
    outcome env_obs_unica "1" = Outcome.falha (clean_cnpj "1") msg_retornos_vazios ∧
    coletar_dados_fundos env_obs_unica ["1"]
      = ([], [(clean_cnpj "1", msg_retornos_vazios)]) := by
  have h := c7_observacao_unica env_obs_unica "1" ⟨some 1, some 1⟩ 1 1
    (by decide) rfl rfl rfl
  exact ⟨by decide, h.1, h.2⟩

theorem c8_testemunha :
    outcome env_test "1" = Outcome.ok "F" (series_retorno recsW3) ∧
    outcome env_test "2" = Outcome.ok "F" (series_retorno recsW3) ∧
    List.lookup "F" (coletar_dados_fundos env_test ["1", "2"]).1
      = some (series_retorno recsW3) ∧
    (coletar_dados_fundos env_test ["1", "2"]).1.filter (fun p => p.1 == "F")
      = [("F", series_retorno recsW3)] := by
  have h1 : outcome env_test "1" = Outcome.ok "F" (series_retorno recsW3) := rfl
  have h2 : outcome env_test "2" = Outcome.ok "F" (series_retorno recsW3) := rfl
  have h := c8_sobrescrita_nome_duplicado env_test [] "1" "2" "F"
    (series_retorno recsW3) (series_retorno recsW3) (by decide) h1 h2
  exact ⟨h1, h2, h.1, h.2⟩

theorem c9_testemunha :
    (∀ c ∈ ("ab-c" : String).data, c.isDigit = false) ∧
    (∀ c ∈ (clean_cnpj "x1y2").data, c.isDigit = true) ∧
    clean_cnpj "ab-c" = "" ∧
    outcome env_test "ab-c" = Outcome.falha "ab-c" msg_cnpj_invalido := by
  have h := c9_normalizador_digitos "x1y2" "ab-c" (by decide)
  exact ⟨by decide, h.1, h.2.1, h.2.2 env_test⟩
